import Mathlib

/-!
Shallow embedding of `script_to_clipboard.py`: a tool that parses a script
document into a table from page number to the ordered list of dialogue
strings on that page, and either lists the pages or copies one page's
dialogues to the clipboard.

Lines are modelled as `List Char` (Python iterates over code points), page
numbers as `Int` (Python `int`), and the `PageTable` as an insertion-ordered
association list, matching the insertion-order semantics of a Python `dict`.
-/

namespace ScriptToClipboard

/-- Characters stripped by Python's `str.strip()` and matched by `\s` in a
Unicode regex, restricted to the whitespace code points that occur in
practice in these documents: ASCII whitespace, NBSP and the ideographic
space. -/
def pyIsSpace (c : Char) : Bool :=
  c = ' ' ∨ c = '\t' ∨ c = '\n' ∨ c = '\r' ∨ c = Char.ofNat 11 ∨
    c = Char.ofNat 12 ∨ c = Char.ofNat 0xa0 ∨ c = Char.ofNat 0x3000

/-- Embedding of Python `line.strip()`: remove leading and trailing
whitespace. -/
def pyStrip (cs : List Char) : List Char :=
  ((cs.dropWhile pyIsSpace).reverse.dropWhile pyIsSpace).reverse

/-- Numeric value of a run of ASCII digits, as Python `int()` computes it. -/
def digitsToInt (ds : List Char) : Int :=
  Int.ofNat (ds.foldl (fun a c => a * 10 + (c.toNat - 48)) 0)

/-- Match of the page-marker regex `【Page\s*(\d+)】` anchored at the start of
`cs`: the literal `【Page`, a maximal run of whitespace, a maximal non-empty
run of digits, then `】`.  (Greedy `\s*` and `\d+` admit no backtracking
here, since a digit is not whitespace and `】` is not a digit.) -/
def markerAt : List Char → Option Int
  | '【' :: 'P' :: 'a' :: 'g' :: 'e' :: rest =>
      let afterWs := rest.dropWhile pyIsSpace
      let digits := afterWs.takeWhile Char.isDigit
      let afterDigits := afterWs.drop digits.length
      if digits ≠ [] ∧ afterDigits.head? = some '】' then
        some (digitsToInt digits)
      else
        none
  | _ => none

/-- Embedding of `page_pattern.search(line)`: the leftmost match of the
page-marker regex in the line, if any, giving its captured page number. -/
def pageSearch : List Char → Option Int
  | [] => none
  | c :: rest =>
      match markerAt (c :: rest) with
      | some n => some n
      | none => pageSearch rest

/-- Page numbers of all (leftmost-starting) occurrences of the page-marker
pattern in a line, in order of occurrence.  `pageSearch` returns the head of
this list; the program itself only ever uses the first occurrence. -/
def allMarkerNumbers : List Char → List Int
  | [] => []
  | c :: rest =>
      match markerAt (c :: rest) with
      | some n => n :: allMarkerNumbers rest
      | none => allMarkerNumbers rest

/-- Match of `([^」]+)」` anchored at the start of `cs`: a maximal non-empty
run of non-`」` characters followed by `」`; returns the captured run. -/
def takeSpan (cs : List Char) : Option (List Char) :=
  let t := cs.takeWhile (fun c => decide (c ≠ '」'))
  if 1 ≤ t.length ∧ t.length < cs.length then some t else none

/-- Capture of the rightmost `「` in `cs` that is followed by a match of
`([^」]+)」`.  This realizes the backtracking of the greedy `.+` in the
dialogue regex `.+「([^」]+)」`: the engine commits to the last open quote
from which the rest of the pattern still matches. -/
def lastQuoteSpan : List Char → Option (List Char)
  | [] => none
  | c :: rest =>
      match lastQuoteSpan rest with
      | some d => some d
      | none => if c = '「' then takeSpan rest else none

/-- Embedding of `re.search(r'.+「([^」]+)」', line)`: the group captured by
the dialogue regex, if the line matches.  `.+` forces at least one character
before the open quote, so the matched `「` sits at index ≥ 1; greediness
selects the rightmost such `「` with a well-formed non-empty span. -/
def dialogueOf : List Char → Option (List Char)
  | [] => none
  | _ :: rest => lastQuoteSpan rest

/-- Test for the presence anywhere in `cs` of an open quote `「` followed by
a non-empty `」`-free run and a closing `」` — i.e. of a well-formed quoted
span.  Used to state which span the greedy dialogue regex captures. -/
def hasOpenSpan : List Char → Bool
  | [] => false
  | c :: rest => (decide (c = '「') && (takeSpan rest).isSome) || hasOpenSpan rest

/-- Page table: insertion-ordered mapping from page number to the dialogues
collected for that page, as built by `parse_script`. -/
abbrev PageTable := List (Int × List String)

/-- Lookup of a page number in the table (Python `pages[n]` / `n in pages`). -/
def lookupPT : PageTable → Int → Option (List String)
  | [], _ => none
  | (k, ds) :: rest, n => if k = n then some ds else lookupPT rest n

/-- Membership test `n in pages`. -/
def hasKey (pt : PageTable) (n : Int) : Bool :=
  (lookupPT pt n).isSome

/-- Append one dialogue to the entry of page `n`
(Python `pages[current_page].append(dialogue)`); the parser only calls this
with `n` present in the table. -/
def appendAt : PageTable → Int → String → PageTable
  | [], _, _ => []
  | (k, ds) :: rest, n, d =>
      if k = n then (k, ds ++ [d]) :: rest else (k, ds) :: appendAt rest n d

/-- Parser state of the line scan: the table built so far and the
current-page cursor (`current_page`, `None` before the first marker). -/
structure ParseState where
  pages : PageTable
  current : Option Int
deriving DecidableEq, Repr

/-- Processing of one line by the loop body of `parse_script`:
a page-marker match sets the cursor and ensures the key exists; otherwise,
under an active page, annotation lines (stripped line starting with `（` or
`[`) are skipped and a dialogue-regex match appends its captured group. -/
def parseLine (st : ParseState) (line : List Char) : ParseState :=
  match pageSearch line with
  | some n =>
      { pages := if hasKey st.pages n then st.pages else st.pages ++ [(n, [])],
        current := some n }
  | none =>
      match st.current with
      | none => st
      | some p =>
          if (pyStrip line).head? = some '（' ∨ (pyStrip line).head? = some '[' then st
          else
            match dialogueOf line with
            | some d => { st with pages := appendAt st.pages p (String.mk d) }
            | none => st

/-- Fold of `parseLine` over the lines of the document. -/
def parseLines (st : ParseState) : List (List Char) → ParseState
  | [] => st
  | l :: ls => parseLines (parseLine st l) ls

/-- Embedding of Python `content.split('\n')` on the code points of the
document: cut at every newline, keeping empty segments, so the empty
document yields one empty line. -/
def splitOnNewline : List Char → List (List Char)
  | [] => [[]]
  | c :: rest =>
      if c = '\n' then [] :: splitOnNewline rest
      else
        match splitOnNewline rest with
        | [] => [[c]]
        | l :: ls => (c :: l) :: ls

/-- Embedding of `parse_script`: split the document on `'\n'`, scan the lines
with an initially empty table and undefined cursor, and return the table. -/
def parseScript (content : String) : PageTable :=
  (parseLines ⟨[], none⟩ (splitOnNewline content.data)).pages

/-- Ascending sort of the page numbers, embedding Python
`sorted(pages.keys())` (on integers the ascending sorted list is unique). -/
def sortedKeys (pt : PageTable) : List Int :=
  List.insertionSort (· ≤ ·) (pt.map Prod.fst)

/-- Display form of one dialogue in list mode:
`dialogue[:30] + "..." if len(dialogue) > 30 else dialogue`. -/
def truncate30 (s : String) : String :=
  if 30 < s.length then s.take 30 ++ "..." else s

/-- Numbering of the dialogues from `i` upward
(Python `enumerate(dialogues, 1)` with `i = 1`). -/
def numberFrom (i : Nat) : List String → List (Nat × String)
  | [] => []
  | d :: ds => (i, d) :: numberFrom (i + 1) ds

/-- Separator line `"=" * 50`. -/
def sepLine : String := String.mk (List.replicate 50 '=')

/-- Lines printed for one page by the loop body of `list_pages`: the page
header with the dialogue count, then one numbered line per dialogue showing
its display copy.  A key absent from the table renders nothing; the loop
only ever visits keys of the table. -/
def renderPage (pt : PageTable) (p : Int) : List String :=
  match lookupPT pt p with
  | some ds =>
      ("\n【Page " ++ toString p ++ "】 (" ++ toString ds.length ++ "セリフ)") ::
        (numberFrom 1 ds).map fun e =>
          "  " ++ toString e.1 ++ ". " ++ truncate30 e.2
  | none => []

/-- Rendering of `list_pages`: the exact sequence of printed lines, visiting
the pages in ascending order of page number. -/
def listPagesRender (pt : PageTable) : List String :=
  [sepLine, "台本ページ一覧", sepLine] ++
    (sortedKeys pt).flatMap (renderPage pt)

/-- Outcome of `copy_page_dialogues`: either of the two error exits, or a
successful copy carrying the clipboard text and the printed lines. -/
inductive CopyResult where
  | pageNotFound (msg listing : String)
  | pageEmpty (msg : String)
  | success (clip : String) (printed : List String)
deriving DecidableEq, Repr

/-- Embedding of `copy_page_dialogues pages page_num`. -/
def copyPageDialogues (pt : PageTable) (n : Int) : CopyResult :=
  match lookupPT pt n with
  | none =>
      CopyResult.pageNotFound
        ("エラー: Page " ++ toString n ++ " が見つかりません")
        ("利用可能なページ: " ++ toString (sortedKeys pt))
  | some ds =>
      if ds = [] then
        CopyResult.pageEmpty ("Page " ++ toString n ++ " にセリフがありません")
      else
        CopyResult.success (String.intercalate "\n\n" ds)
          [("【Page " ++ toString n ++ "】 " ++ toString ds.length ++
              "個のセリフをコピーしました"),
            sepLine, String.intercalate "\n\n" ds, sepLine,
            "クリップボードにコピー完了！"]

/-- Text handed to the clipboard sink by a copy outcome, if any: only a
successful copy invokes `copy_to_clipboard`. -/
def clipOfCopy : CopyResult → Option String
  | CopyResult.success clip _ => some clip
  | _ => none

/-- Exit status of a copy outcome: both error branches call `sys.exit(1)`. -/
def copyExitCode : CopyResult → Nat
  | CopyResult.success _ _ => 0
  | _ => 1

/-- Outcome of `main` after the script file has been read and parsed:
the empty-table error, the list mode, the missing-mode error (which prints
the usage help), or a single-page copy. -/
inductive MainResult where
  | noPages (msg : String)
  | listed (output : List String)
  | missingMode (msg : String)
  | copied (r : CopyResult)
deriving DecidableEq, Repr

/-- Decision logic of `main` on the parsed table and the two mode flags
(`--list` and `--page`): empty table is rejected first, then `--list` wins,
then a missing `--page` is rejected, else the page is copied. -/
def mainDecide (pt : PageTable) (listFlag : Bool) (pageArg : Option Int) :
    MainResult :=
  if pt = [] then
    MainResult.noPages "エラー: ページが見つかりません。台本フォーマットを確認してください"
  else if listFlag then
    MainResult.listed (listPagesRender pt)
  else
    match pageArg with
    | none => MainResult.missingMode "エラー: --page または --list を指定してください"
    | some n => MainResult.copied (copyPageDialogues pt n)

/-- Exit status of a `main` outcome. -/
def exitCodeOf : MainResult → Nat
  | MainResult.noPages _ => 1
  | MainResult.listed _ => 0
  | MainResult.missingMode _ => 1
  | MainResult.copied r => copyExitCode r

/-- Test for the outcome that prints the usage help: only the missing-mode
branch calls `parser.print_help()`. -/
def printsHelp : MainResult → Bool
  | MainResult.missingMode _ => true
  | _ => false

/-- Text handed to the clipboard sink by a `main` outcome, if any. -/
def clipOfMain : MainResult → Option String
  | MainResult.copied r => clipOfCopy r
  | _ => none

/-! ### Equation lemmas for the line scan -/

lemma parseLine_marker {st : ParseState} {l : List Char} {n : Int}
    (h : pageSearch l = some n) :
    parseLine st l =
      { pages := if hasKey st.pages n then st.pages else st.pages ++ [(n, [])],
        current := some n } := by
  unfold parseLine
  rw [h]

lemma parseLine_nocurrent {st : ParseState} {l : List Char}
    (h : pageSearch l = none) (hc : st.current = none) : parseLine st l = st := by
  unfold parseLine
  rw [h, hc]

lemma parseLine_skip {st : ParseState} {l : List Char} {p : Int}
    (h : pageSearch l = none) (hc : st.current = some p)
    (hann : (pyStrip l).head? = some '（' ∨ (pyStrip l).head? = some '[') :
    parseLine st l = st := by
  simp only [parseLine, h, hc, hann, if_true]

lemma parseLine_dialogue {st : ParseState} {l : List Char} {p : Int} {d : List Char}
    (h : pageSearch l = none) (hc : st.current = some p)
    (hann : ¬((pyStrip l).head? = some '（' ∨ (pyStrip l).head? = some '['))
    (hd : dialogueOf l = some d) :
    parseLine st l = { st with pages := appendAt st.pages p (String.mk d) } := by
  simp only [parseLine, h, hc, hd, if_neg hann]

lemma parseLine_nodialogue {st : ParseState} {l : List Char} {p : Int}
    (h : pageSearch l = none) (hc : st.current = some p)
    (hann : ¬((pyStrip l).head? = some '（' ∨ (pyStrip l).head? = some '['))
    (hd : dialogueOf l = none) :
    parseLine st l = st := by
  simp only [parseLine, h, hc, hd, if_neg hann]

/-! ### Helper lemmas about the dialogue regex -/

lemma lastQuoteSpan_of_not_mem {cs : List Char} (h : '「' ∉ cs) :
    lastQuoteSpan cs = none := by
  induction cs with
  | nil => rfl
  | cons c rest ih =>
      simp only [List.mem_cons, not_or] at h
      rw [lastQuoteSpan, ih h.2]
      exact if_neg fun e => h.1 e.symm

lemma open_mem_of_lastQuoteSpan {cs d : List Char}
    (h : lastQuoteSpan cs = some d) : '「' ∈ cs := by
  induction cs with
  | nil => cases h
  | cons c rest ih =>
      rw [lastQuoteSpan] at h
      cases hr : lastQuoteSpan rest with
      | some e =>
          rw [hr] at h
          injection h with he
          subst he
          exact List.mem_cons_of_mem c (ih hr)
      | none =>
          rw [hr] at h
          by_cases hc : c = '「'
          · subst hc
            exact List.mem_cons_self _ _
          · rw [if_neg hc] at h
            cases h

lemma lastQuoteSpan_of_hasOpenSpan_false {cs : List Char}
    (h : hasOpenSpan cs = false) : lastQuoteSpan cs = none := by
  induction cs with
  | nil => rfl
  | cons c rest ih =>
      rw [hasOpenSpan] at h
      have h2 : hasOpenSpan rest = false := by
        cases hx : hasOpenSpan rest
        · rfl
        · rw [hx, Bool.or_true] at h
          cases h
      have h1 : (decide (c = '「') && (takeSpan rest).isSome) = false := by
        cases hx : (decide (c = '「') && (takeSpan rest).isSome)
        · rfl
        · rw [hx, Bool.true_or] at h
          cases h
      rw [lastQuoteSpan, ih h2]
      by_cases hc : c = '「'
      · rw [if_pos hc]
        cases htk : takeSpan rest with
        | none => rfl
        | some d =>
            rw [hc, htk] at h1
            simp at h1
      · exact if_neg hc

lemma takeWhile_ne_close {d : List Char} (post : List Char) (hnod : '」' ∉ d) :
    (d ++ '」' :: post).takeWhile (fun c => decide (c ≠ '」')) = d := by
  induction d with
  | nil => simp [List.takeWhile_cons]
  | cons c rest ih =>
      simp only [List.mem_cons, not_or] at hnod
      have hc : decide (c ≠ '」') = true := by
        simp only [decide_eq_true_eq]
        exact fun e => hnod.1 e.symm
      rw [List.cons_append, List.takeWhile_cons, hc]
      simp only [if_true]
      rw [ih hnod.2]

lemma takeSpan_append {d : List Char} (post : List Char) (hd : d ≠ [])
    (hnod : '」' ∉ d) : takeSpan (d ++ '」' :: post) = some d := by
  simp only [takeSpan, takeWhile_ne_close post hnod]
  rw [if_pos]
  constructor
  · exact List.length_pos.mpr hd
  · simp only [List.length_append, List.length_cons]
    omega

lemma lastQuoteSpan_append {d post : List Char} (hd : d ≠ []) (hnod : '」' ∉ d)
    (hlast : hasOpenSpan (d ++ '」' :: post) = false) (a : List Char) :
    lastQuoteSpan (a ++ '「' :: (d ++ '」' :: post)) = some d := by
  induction a with
  | nil =>
      rw [List.nil_append, lastQuoteSpan, lastQuoteSpan_of_hasOpenSpan_false hlast,
        if_pos rfl, takeSpan_append post hd hnod]
  | cons c a ih =>
      rw [List.cons_append, lastQuoteSpan, ih]

lemma dialogueOf_append {pre d post : List Char} (hpre : pre ≠ []) (hd : d ≠ [])
    (hnod : '」' ∉ d) (hlast : hasOpenSpan (d ++ '」' :: post) = false) :
    dialogueOf (pre ++ '「' :: (d ++ '」' :: post)) = some d := by
  cases pre with
  | nil => exact absurd rfl hpre
  | cons c pre =>
      rw [List.cons_append, dialogueOf]
      exact lastQuoteSpan_append hd hnod hlast pre

/-! ### Helper lemmas about stripping and marker search -/

lemma pyStrip_head {c : Char} (cs : List Char) (h : pyIsSpace c = false) :
    (pyStrip (c :: cs)).head? = some c := by
  unfold pyStrip
  rw [List.dropWhile_cons, h]
  simp only [Bool.false_eq_true, if_false, List.head?_reverse]
  obtain ⟨t, ht⟩ := List.dropWhile_suffix (l := (c :: cs).reverse) pyIsSpace
  have hne : (c :: cs).reverse.dropWhile pyIsSpace ≠ [] := by
    intro hnil
    have hall := List.dropWhile_eq_nil_iff.mp hnil c (by simp)
    rw [h] at hall
    cases hall
  rw [← List.getLast?_append_of_ne_nil t hne, ht]
  have hrev := List.head?_reverse ((c :: cs).reverse)
  rw [List.reverse_reverse] at hrev
  rw [← hrev]
  rfl

lemma pageSearch_eq_head (l : List Char) :
    pageSearch l = (allMarkerNumbers l).head? := by
  induction l with
  | nil => rfl
  | cons c rest ih =>
      rw [pageSearch, allMarkerNumbers]
      cases h : markerAt (c :: rest) with
      | some n => rfl
      | none => exact ih

/-! ### Helper lemmas about the page table and the line fold -/

lemma hasKey_append (pt : PageTable) (n : Int) (ds : List String) (x : Int) :
    hasKey (pt ++ [(n, ds)]) x = (hasKey pt x || decide (n = x)) := by
  induction pt with
  | nil =>
      by_cases h : n = x <;> simp [hasKey, lookupPT, h]
  | cons kv rest ih =>
      obtain ⟨k, kds⟩ := kv
      by_cases hk : k = x
      · simp [hasKey, lookupPT, hk]
      · simp only [List.cons_append, hasKey, lookupPT, if_neg hk] at ih ⊢
        exact ih

lemma hasKey_appendAt (pt : PageTable) (p : Int) (d : String) (x : Int) :
    hasKey (appendAt pt p d) x = hasKey pt x := by
  induction pt with
  | nil => rfl
  | cons kv rest ih =>
      obtain ⟨k, kds⟩ := kv
      simp only [hasKey] at ih ⊢
      by_cases hp : k = p
      · subst hp
        by_cases hx : k = x <;> simp [appendAt, lookupPT, hx]
      · by_cases hx : k = x
        · subst hx
          simp [appendAt, lookupPT, hp]
        · simp [appendAt, lookupPT, hp, hx, ih]

lemma lookupPT_appendAt {pt : PageTable} {p : Int} {ds : List String} (d : String)
    (h : lookupPT pt p = some ds) :
    lookupPT (appendAt pt p d) p = some (ds ++ [d]) := by
  induction pt with
  | nil => cases h
  | cons kv rest ih =>
      obtain ⟨k, kds⟩ := kv
      by_cases hk : k = p
      · rw [lookupPT, if_pos hk] at h
        injection h with he
        subst he
        simp [appendAt, hk, lookupPT]
      · rw [lookupPT, if_neg hk] at h
        simp [appendAt, hk, lookupPT, ih h]

lemma lookupPT_isSome_of_mem {pt : PageTable} {p : Int}
    (h : p ∈ pt.map Prod.fst) : (lookupPT pt p).isSome = true := by
  induction pt with
  | nil => cases h
  | cons kv rest ih =>
      obtain ⟨k, kds⟩ := kv
      by_cases hk : k = p
      · simp [lookupPT, hk]
      · simp only [List.map_cons, List.mem_cons] at h
        rcases h with h | h
        · exact absurd h.symm hk
        · simp [lookupPT, hk, ih h]

lemma hasKey_parseLine (st : ParseState) (l : List Char) (x : Int) :
    hasKey (parseLine st l).pages x =
      (hasKey st.pages x || decide (pageSearch l = some x)) := by
  cases hps : pageSearch l with
  | some n =>
      rw [parseLine_marker hps]
      show hasKey (if hasKey st.pages n then st.pages else st.pages ++ [(n, [])]) x = _
      by_cases hk : hasKey st.pages n = true
      · rw [if_pos hk]
        by_cases hx : n = x
        · subst hx
          simp [hk]
        · simp [Option.some_inj, hx]
      · rw [if_neg hk, hasKey_append]
        by_cases hx : n = x <;> simp [hx]
  | none =>
      cases hc : st.current with
      | none => simp [parseLine_nocurrent hps hc]
      | some p =>
          by_cases hann : (pyStrip l).head? = some '（' ∨ (pyStrip l).head? = some '['
          · simp [parseLine_skip hps hc hann]
          · cases hd : dialogueOf l with
            | some d =>
                rw [parseLine_dialogue hps hc hann hd]
                show hasKey (appendAt st.pages p (String.mk d)) x = _
                simp [hasKey_appendAt]
            | none => simp [parseLine_nodialogue hps hc hann hd]

lemma hasKey_parseLines (ls : List (List Char)) (st : ParseState) (x : Int) :
    hasKey (parseLines st ls).pages x =
      (hasKey st.pages x || ls.any fun l => decide (pageSearch l = some x)) := by
  induction ls generalizing st with
  | nil => simp [parseLines]
  | cons l ls ih =>
      rw [parseLines, ih, hasKey_parseLine]
      simp [Bool.or_assoc]

lemma parseLines_nil_state {ls : List (List Char)}
    (h : ∀ l ∈ ls, pageSearch l = none) :
    parseLines ⟨[], none⟩ ls = ⟨[], none⟩ := by
  induction ls with
  | nil => rfl
  | cons l ls ih =>
      rw [parseLines, parseLine_nocurrent (h l (List.mem_cons_self l ls)) rfl]
      exact ih fun l hl => h l (List.mem_cons_of_mem _ hl)

/-! ### Claims -/

/-- C1: parsing the document with lines 【Page 1】, Alice「Hello」,
（stage direction）, 【Page 2】, Bob「Goodbye」 yields exactly the table
mapping page 1 to ["Hello"] and page 2 to ["Goodbye"]. -/
theorem C1_scenario_parse :
    parseScript "【Page 1】\nAlice「Hello」\n（stage direction）\n【Page 2】\nBob「Goodbye」" =
      [(1, ["Hello"]), (2, ["Goodbye"])] := by
  decide

/-- C2 as stated is false: on the one-line document 【Page 1】【Page 2】 the
number 2 appears in a page-marker pattern, yet 2 is not a key of the parsed
table (only the first marker match of a line is used). -/
theorem C2_counterexample :
    (∃ l ∈ splitOnNewline ("【Page 1】【Page 2】" : String).data,
        (2 : Int) ∈ allMarkerNumbers l) ∧
      hasKey (parseScript "【Page 1】【Page 2】") 2 = false := by
  decide

/-- C2 (amended): the keys of the table returned by `parse_script` are
exactly the integers captured by the leftmost page-marker match of each
line that contains one — every such page number is a key (created with an
empty sequence), and no other key exists. -/
theorem C2_keys_are_line_markers (content : String) (x : Int) :
    hasKey (parseScript content) x = true ↔
      ∃ l ∈ splitOnNewline content.data, pageSearch l = some x := by
  unfold parseScript
  rw [hasKey_parseLines]
  show (false || _) = true ↔ _
  rw [Bool.false_or, List.any_eq_true]
  simp only [decide_eq_true_eq]

/-- C4 as stated is false: a line whose trimmed content starts with （ is
not ignored unconditionally — if it also contains a page marker, the marker
branch runs first, sets the current-page cursor and creates the key, as the
document （a）【Page 3】 followed by X「y」 shows. -/
theorem C4_counterexample :
    (pyStrip "（a）【Page 3】".data).head? = some '（' ∧
      parseScript "（a）【Page 3】\nX「y」" = [(3, ["y"])] ∧
      parseScript "（a）【Page 3】\nX「y」" ≠ [] := by
  decide

/-- C4 (amended): every line that does not contain a page marker and whose
whitespace-trimmed content starts with （ or [ is ignored: the parser state
(table and cursor) is unchanged, so the line contributes no dialogue even if
it contains a 「…」 quote pair. -/
theorem C4_nonmarker_skipped (st : ParseState) (line : List Char)
    (hmark : pageSearch line = none)
    (hann : (pyStrip line).head? = some '（' ∨ (pyStrip line).head? = some '[') :
    parseLine st line = st := by
  cases hc : st.current with
  | none => exact parseLine_nocurrent hmark hc
  | some p => exact parseLine_skip hmark hc hann

/-- Witness for C4: a stage-direction line containing a quote pair, under an
active page, leaves the state untouched. -/
theorem C4_witness :
    parseLine ⟨[(1, ["a"])], some 1⟩ "（x）A「y」".data = ⟨[(1, ["a"])], some 1⟩ :=
  C4_nonmarker_skipped _ _ (by decide) (by decide)

/-- C7: a document with no page markers on any line parses to the empty
table, and `main` then reports the no-pages error and exits non-zero in
either mode, before any listing or copying. -/
theorem C7_no_markers_error (content : String)
    (h : ∀ l ∈ splitOnNewline content.data, allMarkerNumbers l = []) :
    parseScript content = [] ∧
      ∀ (lf : Bool) (pa : Option Int),
        mainDecide (parseScript content) lf pa =
          MainResult.noPages
            "エラー: ページが見つかりません。台本フォーマットを確認してください" ∧
        exitCodeOf (mainDecide (parseScript content) lf pa) = 1 := by
  have hempty : parseScript content = [] := by
    unfold parseScript
    rw [parseLines_nil_state]
    intro l hl
    rw [pageSearch_eq_head l, h l hl]
    rfl
  refine ⟨hempty, fun lf pa => ?_⟩
  rw [hempty]
  exact ⟨rfl, rfl⟩

/-- Witness for C7: a two-line document of plain dialogue lines without any
marker is rejected with the no-pages error. -/
theorem C7_witness :
    parseScript "Alice「Hi」\nBob「Yo」" = [] ∧
      ∀ (lf : Bool) (pa : Option Int),
        mainDecide (parseScript "Alice「Hi」\nBob「Yo」") lf pa =
          MainResult.noPages
            "エラー: ページが見つかりません。台本フォーマットを確認してください" ∧
        exitCodeOf (mainDecide (parseScript "Alice「Hi」\nBob「Yo」") lf pa) = 1 :=
  C7_no_markers_error _ (by decide)

/-- C8 as stated is false: on an invocation whose parsed table is empty
(here: an empty document) with neither --page nor --list supplied, the
program exits non-zero through the no-pages error without printing the
usage help. -/
theorem C8_counterexample :
    printsHelp (mainDecide (parseScript "") false none) = false ∧
      exitCodeOf (mainDecide (parseScript "") false none) = 1 ∧
      mainDecide (parseScript "") false none =
        MainResult.noPages
          "エラー: ページが見つかりません。台本フォーマットを確認してください" := by
  decide

/-- C8 (amended): once the parsed table is non-empty, exactly one mode is
effectively used — --list wins whenever it is set, --page is used otherwise —
and if neither is supplied the program prints the usage help and exits
non-zero. -/
theorem C8_mode_selection (pt : PageTable) (hne : pt ≠ []) :
    (mainDecide pt false none =
        MainResult.missingMode "エラー: --page または --list を指定してください" ∧
      printsHelp (mainDecide pt false none) = true ∧
      exitCodeOf (mainDecide pt false none) = 1) ∧
    (∀ pa : Option Int,
      mainDecide pt true pa = MainResult.listed (listPagesRender pt)) ∧
    (∀ n : Int,
      mainDecide pt false (some n) = MainResult.copied (copyPageDialogues pt n)) := by
  have hm : mainDecide pt false none =
      MainResult.missingMode "エラー: --page または --list を指定してください" := by
    unfold mainDecide
    rw [if_neg hne]
    rfl
  refine ⟨⟨hm, by rw [hm]; rfl, by rw [hm]; rfl⟩, fun pa => ?_, fun n => ?_⟩
  · unfold mainDecide
    rw [if_neg hne]
    rfl
  · unfold mainDecide
    rw [if_neg hne]
    rfl

/-- Witness for C8: the amended mode-selection behaviour on a one-page
table. -/
theorem C8_witness :
    (mainDecide [(1, ["a"])] false none =
        MainResult.missingMode "エラー: --page または --list を指定してください" ∧
      printsHelp (mainDecide [(1, ["a"])] false none) = true ∧
      exitCodeOf (mainDecide [(1, ["a"])] false none) = 1) ∧
    (∀ pa : Option Int,
      mainDecide [(1, ["a"])] true pa =
        MainResult.listed (listPagesRender [(1, ["a"])])) ∧
    (∀ n : Int,
      mainDecide [(1, ["a"])] false (some n) =
        MainResult.copied (copyPageDialogues [(1, ["a"])] n)) :=
  C8_mode_selection [(1, ["a"])] (by decide)

/-- C10: a dialogue is only recognized when at least one character precedes
the opening corner quote: a line consisting of a single quoted span starting
at column zero contributes nothing under an active page, and in general any
extracted dialogue comes from an open quote strictly after the first
character of its line. -/
theorem C10_label_required (st : ParseState) (p : Int) (rest : List Char)
    (hcur : st.current = some p) (hq : '「' ∉ rest)
    (hmark : pageSearch ('「' :: rest) = none) :
    parseLine st ('「' :: rest) = st ∧
      ∀ (line d : List Char), dialogueOf line = some d →
        ∃ c cs, line = c :: cs ∧ '「' ∈ cs := by
  constructor
  · have hhead : (pyStrip ('「' :: rest)).head? = some '「' :=
      pyStrip_head rest (by decide)
    have hann : ¬((pyStrip ('「' :: rest)).head? = some '（' ∨
        (pyStrip ('「' :: rest)).head? = some '[') := by
      rw [hhead]
      decide
    have hd : dialogueOf ('「' :: rest) = none := by
      rw [dialogueOf]
      exact lastQuoteSpan_of_not_mem hq
    exact parseLine_nodialogue hmark hcur hann hd
  · intro line d hdl
    cases line with
    | nil => cases hdl
    | cons c cs =>
        rw [dialogueOf] at hdl
        exact ⟨c, cs, rfl, open_mem_of_lastQuoteSpan hdl⟩

/-- Witness for C10: the bare line 「Hello」 under active page 1 adds no
dialogue. -/
theorem C10_witness :
    parseLine ⟨[(1, [])], some 1⟩ ('「' :: "Hello」".data) = ⟨[(1, [])], some 1⟩ ∧
      ∀ (line d : List Char), dialogueOf line = some d →
        ∃ c cs, line = c :: cs ∧ '「' ∈ cs :=
  C10_label_required ⟨[(1, [])], some 1⟩ 1 "Hello」".data rfl (by decide) (by decide)

/-- C3 as stated is false: on the line A「x」B「y」 under page 1 the code
extracts the later span "y" (the greedy leading `.+` commits to the last
well-formed span), not the first span "x". -/
theorem C3_counterexample :
    parseScript "【Page 1】\nA「x」B「y」" = [(1, ["y"])] ∧
      parseScript "【Page 1】\nA「x」B「y」" ≠ [(1, ["x"])] := by
  decide

/-- C3 (amended): for a dialogue-candidate line under an active page that
contains more than one quoted span, exactly one dialogue is extracted from
the line, and it is the content of the LAST well-formed quoted span — the
rightmost 「 preceded by at least one character and followed by a non-empty
」-free run and its closing 」, with no further well-formed span after it. -/
theorem C3_last_span (st : ParseState) (p : Int) (ds : List String)
    (pre d post : List Char)
    (hcur : st.current = some p)
    (hkey : lookupPT st.pages p = some ds)
    (hmark : pageSearch (pre ++ '「' :: (d ++ '」' :: post)) = none)
    (hann : ¬((pyStrip (pre ++ '「' :: (d ++ '」' :: post))).head? = some '（' ∨
        (pyStrip (pre ++ '「' :: (d ++ '」' :: post))).head? = some '['))
    (hpre : pre ≠ []) (hd : d ≠ []) (hnod : '」' ∉ d)
    (hlast : hasOpenSpan (d ++ '」' :: post) = false)
    (_hmulti : hasOpenSpan pre = true) :
    parseLine st (pre ++ '「' :: (d ++ '」' :: post)) =
      { st with pages := appendAt st.pages p (String.mk d) } ∧
    lookupPT (parseLine st (pre ++ '「' :: (d ++ '」' :: post))).pages p =
      some (ds ++ [String.mk d]) := by
  have hdl : dialogueOf (pre ++ '「' :: (d ++ '」' :: post)) = some d :=
    dialogueOf_append hpre hd hnod hlast
  have heq := parseLine_dialogue hmark hcur hann hdl
  refine ⟨heq, ?_⟩
  rw [heq]
  exact lookupPT_appendAt _ hkey

/-- Witness for C3: the two-span line A「x」B「y」 appends exactly "y" to
page 1. -/
theorem C3_witness :
    parseLine ⟨[(1, [])], some 1⟩ ("A「x」B".data ++ '「' :: ("y".data ++ '」' :: [])) =
      ⟨appendAt [(1, [])] 1 (String.mk "y".data), some 1⟩ ∧
    lookupPT (parseLine ⟨[(1, [])], some 1⟩
        ("A「x」B".data ++ '「' :: ("y".data ++ '」' :: []))).pages 1 =
      some ([] ++ [String.mk "y".data]) :=
  C3_last_span ⟨[(1, [])], some 1⟩ 1 [] "A「x」B".data "y".data [] rfl (by decide)
    (by decide) (by decide) (by decide) (by decide) (by decide) (by decide) (by decide)

/-- Success branch of `copy_page_dialogues`: a present non-empty page joins
its dialogues with a blank line, sends the joined text to the clipboard and
prints the header, the joined text between separators and the footer. -/
lemma copyPageDialogues_success {pt : PageTable} {n : Int} {ds : List String}
    (h : lookupPT pt n = some ds) (hne : ds ≠ []) :
    copyPageDialogues pt n =
      CopyResult.success (String.intercalate "\n\n" ds)
        [("【Page " ++ toString n ++ "】 " ++ toString ds.length ++
            "個のセリフをコピーしました"),
          sepLine, String.intercalate "\n\n" ds, sepLine,
          "クリップボードにコピー完了！"] := by
  simp [copyPageDialogues, h, hne]

/-- C5: in single-page mode a missing page yields the page-not-found error
naming the page and listing the available pages in ascending sorted order,
an empty page yields the distinct page-has-no-dialogue error; both exit
non-zero and in neither case is any text handed to the clipboard sink. -/
theorem C5_single_page_errors (pt : PageTable) (n : Int) :
    (lookupPT pt n = none →
        copyPageDialogues pt n =
          CopyResult.pageNotFound
            ("エラー: Page " ++ toString n ++ " が見つかりません")
            ("利用可能なページ: " ++ toString (sortedKeys pt)) ∧
        List.Sorted (· ≤ ·) (sortedKeys pt) ∧
        copyExitCode (copyPageDialogues pt n) = 1 ∧
        clipOfCopy (copyPageDialogues pt n) = none) ∧
    (lookupPT pt n = some [] →
        copyPageDialogues pt n =
          CopyResult.pageEmpty ("Page " ++ toString n ++ " にセリフがありません") ∧
        copyExitCode (copyPageDialogues pt n) = 1 ∧
        clipOfCopy (copyPageDialogues pt n) = none) ∧
    (∀ m1 m2 m3 : String,
      CopyResult.pageNotFound m1 m2 ≠ CopyResult.pageEmpty m3) := by
  refine ⟨fun h => ?_, fun h => ?_, fun m1 m2 m3 h => CopyResult.noConfusion h⟩
  · have he : copyPageDialogues pt n =
        CopyResult.pageNotFound
          ("エラー: Page " ++ toString n ++ " が見つかりません")
          ("利用可能なページ: " ++ toString (sortedKeys pt)) := by
      unfold copyPageDialogues
      rw [h]
    exact ⟨he, List.sorted_insertionSort _ _, by rw [he]; rfl, by rw [he]; rfl⟩
  · have he : copyPageDialogues pt n =
        CopyResult.pageEmpty ("Page " ++ toString n ++ " にセリフがありません") := by
      unfold copyPageDialogues
      rw [h]
      rfl
    exact ⟨he, by rw [he]; rfl, by rw [he]; rfl⟩

/-- Witness for C5: requesting page 9 of a table with pages 1 and 2 fails
with the page-not-found error listing [1, 2]; requesting the empty page 2
fails with the page-has-no-dialogue error. -/
theorem C5_witness :
    (copyPageDialogues [(1, ["a"]), (2, [])] 9 =
        CopyResult.pageNotFound
          ("エラー: Page " ++ toString (9 : Int) ++ " が見つかりません")
          ("利用可能なページ: " ++ toString (sortedKeys [(1, ["a"]), (2, [])])) ∧
      List.Sorted (· ≤ ·) (sortedKeys [(1, ["a"]), (2, [])]) ∧
      copyExitCode (copyPageDialogues [(1, ["a"]), (2, [])] 9) = 1 ∧
      clipOfCopy (copyPageDialogues [(1, ["a"]), (2, [])] 9) = none) ∧
    (copyPageDialogues [(1, ["a"]), (2, [])] 2 =
        CopyResult.pageEmpty ("Page " ++ toString (2 : Int) ++ " にセリフがありません") ∧
      copyExitCode (copyPageDialogues [(1, ["a"]), (2, [])] 2) = 1 ∧
      clipOfCopy (copyPageDialogues [(1, ["a"]), (2, [])] 2) = none) :=
  ⟨(C5_single_page_errors [(1, ["a"]), (2, [])] 9).1 (by decide),
   (C5_single_page_errors [(1, ["a"]), (2, [])] 2).2.1 (by decide)⟩

/-- C6: for a present non-empty page the clipboard sink receives exactly the
page's dialogues in order joined with a double newline, and the program
prints the confirmation header, the full joined text between separators, and
the success footer, exiting with status 0. -/
theorem C6_copy_joined (pt : PageTable) (n : Int) (ds : List String)
    (h : lookupPT pt n = some ds) (hne : ds ≠ []) :
    copyPageDialogues pt n =
      CopyResult.success (String.intercalate "\n\n" ds)
        [("【Page " ++ toString n ++ "】 " ++ toString ds.length ++
            "個のセリフをコピーしました"),
          sepLine, String.intercalate "\n\n" ds, sepLine,
          "クリップボードにコピー完了！"] ∧
    clipOfCopy (copyPageDialogues pt n) = some (String.intercalate "\n\n" ds) ∧
    copyExitCode (copyPageDialogues pt n) = 0 := by
  have he := copyPageDialogues_success h hne
  exact ⟨he, by rw [he]; rfl, by rw [he]; rfl⟩

/-- Witness for C6: copying page 1 with dialogues ["a", "b"] sends "a\n\nb"
to the clipboard. -/
theorem C6_witness :
    copyPageDialogues [(1, ["a", "b"])] 1 =
      CopyResult.success (String.intercalate "\n\n" ["a", "b"])
        [("【Page " ++ toString (1 : Int) ++ "】 " ++ toString (2 : Nat) ++
            "個のセリフをコピーしました"),
          sepLine, String.intercalate "\n\n" ["a", "b"], sepLine,
          "クリップボードにコピー完了！"] ∧
    clipOfCopy (copyPageDialogues [(1, ["a", "b"])] 1) =
      some (String.intercalate "\n\n" ["a", "b"]) ∧
    copyExitCode (copyPageDialogues [(1, ["a", "b"])] 1) = 0 :=
  C6_copy_joined [(1, ["a", "b"])] 1 ["a", "b"] (by decide) (by decide)

/-- C9: list mode visits the pages in ascending order (a sorted permutation
of the keys), prints for each page its dialogue count and one numbered line
per dialogue showing the display copy, where the display copy equals the
stored string when it has at most 30 characters and is its 30-character
prefix plus an ellipsis (33 characters in total) when longer; the stored
dialogue strings are untouched — a later copy still sends the full joined
text. -/
theorem C9_list_display (pt : PageTable) :
    List.Sorted (· ≤ ·) (sortedKeys pt) ∧
    List.Perm (sortedKeys pt) (pt.map Prod.fst) ∧
    (∀ p ds, lookupPT pt p = some ds →
        renderPage pt p =
          ("\n【Page " ++ toString p ++ "】 (" ++ toString ds.length ++ "セリフ)") ::
            (numberFrom 1 ds).map fun e =>
              "  " ++ toString e.1 ++ ". " ++ truncate30 e.2) ∧
    (∀ s : String, s.length ≤ 30 → truncate30 s = s) ∧
    (∀ s : String, 30 < s.length →
        truncate30 s = s.take 30 ++ "..." ∧ (truncate30 s).length = 33) ∧
    (∀ p ds, lookupPT pt p = some ds → ds ≠ [] →
        clipOfCopy (copyPageDialogues pt p) =
          some (String.intercalate "\n\n" ds)) := by
  refine ⟨List.sorted_insertionSort _ _, List.perm_insertionSort _ _,
    fun p ds h => ?_, fun s hle => ?_, fun s hgt => ?_, fun p ds h hne => ?_⟩
  · unfold renderPage
    rw [h]
  · rw [truncate30, if_neg (not_lt.mpr hle)]
  · have h30 : (s.take 30).length = 30 := by
      rw [String.take_eq]
      show (s.data.take 30).length = 30
      rw [List.length_take]
      exact min_eq_left (le_of_lt hgt)
    constructor
    · rw [truncate30, if_pos hgt]
    · rw [truncate30, if_pos hgt, String.length_append, h30]
      decide
  · rw [copyPageDialogues_success h hne]
    rfl

/-- Witness for C9: a two-page table with a short and a 40-character
dialogue. -/
theorem C9_witness :
    renderPage [(2, ["ab"]), (1, ["aaaaaaaaaaaaaaaaaaaaaaaaaaaaaaaaaaaaaaaa"])] 1 =
      ("\n【Page " ++ toString (1 : Int) ++ "】 (" ++ toString (1 : Nat) ++ "セリフ)") ::
        (numberFrom 1 ["aaaaaaaaaaaaaaaaaaaaaaaaaaaaaaaaaaaaaaaa"]).map (fun e =>
          "  " ++ toString e.1 ++ ". " ++ truncate30 e.2) ∧
    truncate30 "ab" = "ab" ∧
    (truncate30 "aaaaaaaaaaaaaaaaaaaaaaaaaaaaaaaaaaaaaaaa" =
        "aaaaaaaaaaaaaaaaaaaaaaaaaaaaaaaaaaaaaaaa".take 30 ++ "..." ∧
      (truncate30 "aaaaaaaaaaaaaaaaaaaaaaaaaaaaaaaaaaaaaaaa").length = 33) ∧
    clipOfCopy
        (copyPageDialogues [(2, ["ab"]), (1, ["aaaaaaaaaaaaaaaaaaaaaaaaaaaaaaaaaaaaaaaa"])] 2) =
      some (String.intercalate "\n\n" ["ab"]) :=
  ⟨(C9_list_display [(2, ["ab"]), (1, ["aaaaaaaaaaaaaaaaaaaaaaaaaaaaaaaaaaaaaaaa"])]).2.2.1 1
      ["aaaaaaaaaaaaaaaaaaaaaaaaaaaaaaaaaaaaaaaa"] (by decide),
   (C9_list_display [(2, ["ab"]), (1, ["aaaaaaaaaaaaaaaaaaaaaaaaaaaaaaaaaaaaaaaa"])]).2.2.2.1
      "ab" (by decide),
   (C9_list_display [(2, ["ab"]), (1, ["aaaaaaaaaaaaaaaaaaaaaaaaaaaaaaaaaaaaaaaa"])]).2.2.2.2.1
      "aaaaaaaaaaaaaaaaaaaaaaaaaaaaaaaaaaaaaaaa" (by decide),
   (C9_list_display [(2, ["ab"]), (1, ["aaaaaaaaaaaaaaaaaaaaaaaaaaaaaaaaaaaaaaaa"])]).2.2.2.2.2
      2 ["ab"] (by decide) (by decide)⟩

end ScriptToClipboard
